import Mathlib

/-!
Shallow embedding of the 2D-Resource-Competition-Simulation core
(`rcs_core`: `cell.rs`, `agent.rs`, `world.rs`, `errors.rs`), together with
theorems settling the specification claims about it.

Machine integers: the Rust code stores resource/rate quantities in `u32` and
uses only `saturating_add` (followed by a `min` with a cap), `saturating_sub`,
checked subtraction on amounts already known to be available, and integer
division.  We model `u32` values as `Nat`, `saturating_add` as `satAdd`
(addition capped at `U32MAX`), and `saturating_sub` as truncated `Nat`
subtraction, which coincides with the Rust semantics on all `u32` inputs.
-/

/-- `u32::MAX`, i.e. `2 ^ 32 - 1`, written as a numeral. -/
def U32MAX : Nat := 4294967295

/-- `u32::saturating_add` on `Nat` representatives of `u32` values. -/
def satAdd (a b : Nat) : Nat := min (a + b) U32MAX

/-- `SimulationError` from `errors.rs`. -/
inductive SimulationError where
  | NotAlive : SimulationError
  | NotEnoughResources : (available : Nat) → SimulationError
deriving DecidableEq

/-- `Cell` from `cell.rs`. -/
structure Cell where
  id : Nat
  cur_resource : Nat
  max_resource : Nat
  regen_rate : Nat
  max_regen_rate : Nat
deriving DecidableEq

def defaultCell : Cell := ⟨0, 0, 0, 0, 0⟩

/-- `Cell::new`: stores the five fields unchanged (no clamping). -/
def Cell.new (id cur_resource max_resource regen_rate max_regen_rate : Nat) : Cell :=
  ⟨id, cur_resource, max_resource, regen_rate, max_regen_rate⟩

/-- `Cell::add_resource`: saturating add, then capped at `max_resource`. -/
def Cell.add_resource (c : Cell) (resource : Nat) : Cell :=
  { c with cur_resource := min (satAdd c.cur_resource resource) c.max_resource }

/-- `Cell::resource_consumption`: exact-or-fail deduction. -/
def Cell.resource_consumption (c : Cell) (resource : Nat) :
    Cell × Except SimulationError Nat :=
  if c.cur_resource < resource then
    (c, .error (.NotEnoughResources c.cur_resource))
  else
    ({ c with cur_resource := c.cur_resource - resource }, .ok resource)

/-- `Cell::take_up_to`: deduct `min want cur_resource`, return the amount taken. -/
def Cell.take_up_to (c : Cell) (want : Nat) : Cell × Nat :=
  let take := min want c.cur_resource
  ({ c with cur_resource := c.cur_resource - take }, take)

/-- `Cell::increase_rate`: saturating add, then capped at `max_regen_rate`. -/
def Cell.increase_rate (c : Cell) (regen_rate : Nat) : Cell :=
  { c with regen_rate := min (satAdd c.regen_rate regen_rate) c.max_regen_rate }

/-- `impl Updatable for Cell`: regenerate by `regen_rate`, capped at
`max_resource`; always returns `Ok`. -/
def Cell.update (c : Cell) : Cell × Except SimulationError Unit :=
  ({ c with cur_resource := min (satAdd c.cur_resource c.regen_rate) c.max_resource }, .ok ())

/-- `Agent` from `agent.rs`. -/
structure Agent where
  id : Nat
  cid : Nat
  consumption_rate : Nat
  allocated_resource : Nat
  health_point : Nat
  alive : Bool
deriving DecidableEq

def defaultAgent : Agent := ⟨0, 0, 0, 0, 0, false⟩

/-- `Agent::new`. -/
def Agent.new (id cid consumption_rate allocated_resource health_point : Nat)
    (alive : Bool) : Agent :=
  ⟨id, cid, consumption_rate, allocated_resource, health_point, alive⟩

/-- `Agent::metabolize` (private helper): lose 1 HP when underfed, reset the
allocation, die at 0 HP. -/
def Agent.metabolize (a : Agent) : Agent :=
  let hp := if a.allocated_resource < a.consumption_rate then a.health_point - 1
            else a.health_point
  if hp = 0 then
    { a with health_point := hp, allocated_resource := 0, alive := false }
  else
    { a with health_point := hp, allocated_resource := 0 }

/-- `Agent::movement_cost` (private helper): lose 1 HP, die at 0 HP. -/
def Agent.movement_cost (a : Agent) : Agent :=
  let hp := a.health_point - 1
  if hp = 0 then { a with health_point := hp, alive := false }
  else { a with health_point := hp }

/-- `Agent::move_to`: fails on a dead agent; otherwise set `cid`, then apply
the movement cost. -/
def Agent.move_to (a : Agent) (new_id : Nat) : Agent × Except SimulationError Unit :=
  if a.alive = false then (a, .error .NotAlive)
  else (Agent.movement_cost { a with cid := new_id }, .ok ())

/-- `Agent::retrieve_resource`: take `min resource consumption_rate`,
overwrite `allocated_resource` with it, return the leftover. -/
def Agent.retrieve_resource (a : Agent) (resource : Nat) : Agent × Nat :=
  let take := min resource a.consumption_rate
  ({ a with allocated_resource := take }, resource - take)

/-- `Agent::is_hungry`. -/
def Agent.is_hungry (a : Agent) : Bool :=
  decide (a.allocated_resource < a.consumption_rate)

/-- `Agent::decide_move`.  The Rust body runs `iter().max_by_key(resource)`
over the slice; `max_by_key` keeps the LAST of equally-maximal elements, which
the left fold with `≤` reproduces (`self` is unread by the Rust method, so it
is omitted here). -/
def decide_move (neighbor_cells : List (Nat × Nat)) : Option Nat :=
  match neighbor_cells with
  | [] => none
  | x :: xs =>
      let best := xs.foldl (fun acc y => if acc.2 ≤ y.2 then y else acc) x
      if 0 < best.2 then some best.1 else none

/-- `impl Updatable for Agent`: fails on a dead agent, otherwise metabolize. -/
def Agent.update (a : Agent) : Agent × Except SimulationError Unit :=
  if a.alive = false then (a, .error .NotAlive)
  else (a.metabolize, .ok ())

/-- `World` from `world.rs`. -/
structure World where
  size : Nat × Nat
  cells : List Cell
  agents : List Agent
  max_agents : Nat
deriving DecidableEq

/-- The `cell_to_agents` buckets of `World::allocate_resources`: bucket `cid`
receives, in iteration (= index) order, every index `i` of a currently-alive
agent whose `cid` field equals `cid`. -/
def residentIndices (agents : List Agent) (cid : Nat) : List Nat :=
  (List.range agents.length).filter
    (fun i => (agents.getD i defaultAgent).alive &&
              ((agents.getD i defaultAgent).cid == cid))

/-- The inner loop of `World::allocate_resources`: serve `base_share` to each
resident in turn via `retrieve_resource`, accumulating leftovers into
`remaining`. -/
def serveAgents (agents : List Agent) (idxs : List Nat) (base_share remaining : Nat) :
    List Agent × Nat :=
  match idxs with
  | [] => (agents, remaining)
  | i :: rest =>
      let r := Agent.retrieve_resource (agents.getD i defaultAgent) base_share
      serveAgents (agents.set i r.1) rest base_share (remaining + r.2)

/-- One iteration of the per-cell loop of `World::allocate_resources`
(`buckets` is the precomputed `cell_to_agents` table). -/
def allocateCell (buckets : Nat → List Nat) (st : List Cell × List Agent)
    (cid : Nat) : List Cell × List Agent :=
  let idxs := buckets cid
  if idxs = [] then st
  else
    let total := (st.1.getD cid defaultCell).cur_resource
    if total = 0 then st
    else
      let base_share := total / idxs.length
      let remaining := total - base_share * idxs.length
      let sa := serveAgents st.2 idxs base_share remaining
      let spent := total - sa.2
      let tk := Cell.take_up_to (st.1.getD cid defaultCell) spent
      (st.1.set cid tk.1, sa.1)

/-- `World::allocate_resources`: group alive agents by cell, then run the
per-cell division/serve/deduct loop over every cell id. -/
def allocate_resources (w : World) : World :=
  let res := (List.range w.cells.length).foldl
    (allocateCell (residentIndices w.agents)) (w.cells, w.agents)
  { w with cells := res.1, agents := res.2 }

/-- `World::neighbor_cells_info`: the up/down/left/right neighbors that exist
on the grid, in that fixed order, paired with their current resource. -/
def neighbor_cells_info (w : World) (cid : Nat) : List (Nat × Nat) :=
  let width := w.size.1
  let height := w.size.2
  let x := cid % width
  let y := cid / width
  (if 0 < y then
      [((y - 1) * width + x, (w.cells.getD ((y - 1) * width + x) defaultCell).cur_resource)]
    else []) ++
  (if y + 1 < height then
      [((y + 1) * width + x, (w.cells.getD ((y + 1) * width + x) defaultCell).cur_resource)]
    else []) ++
  (if 0 < x then
      [(y * width + (x - 1), (w.cells.getD (y * width + (x - 1)) defaultCell).cur_resource)]
    else []) ++
  (if x + 1 < width then
      [(y * width + (x + 1), (w.cells.getD (y * width + (x + 1)) defaultCell).cur_resource)]
    else [])

/-- `World::handle_agent_death`: grant the dead agent's current cell 5
resource (capped) and 1 regen rate (capped). -/
def handle_agent_death (w : World) (id : Nat) : World :=
  let cid := (w.agents.getD id defaultAgent).cid
  let c1 := Cell.add_resource (w.cells.getD cid defaultCell) 5
  let c2 := Cell.increase_rate c1 1
  { w with cells := w.cells.set cid c2 }

/-- The movement half of `World::step_agent`: the value agent `id` holds after
the optional hunger-driven move (the `Err` of `move_to` is discarded). -/
def agentAfterMove (w : World) (id : Nat) : Agent :=
  let a := w.agents.getD id defaultAgent
  if a.is_hungry then
    match decide_move (neighbor_cells_info w a.cid) with
    | some target => (a.move_to target).1
    | none => a
  else a

/-- `World::step_agent`: skip dead agents; optionally move; on death from the
move run death handling and stop; otherwise metabolize (`Err` discarded) and
run death handling if that killed the agent. -/
def step_agent (w : World) (id : Nat) : World :=
  let a := w.agents.getD id defaultAgent
  if a.alive = false then w
  else
    let a1 := agentAfterMove w id
    let w1 := { w with agents := w.agents.set id a1 }
    if a1.alive = false then handle_agent_death w1 id
    else
      let a2 := (a1.update).1
      let w2 := { w1 with agents := w1.agents.set id a2 }
      if a2.alive = false then handle_agent_death w2 id else w2

/-- `World::step_all_agents`: run `step_agent` on each id in order. -/
def step_all_agents (w : World) : World :=
  (List.range w.agents.length).foldl step_agent w

/-- `impl Updatable for World`: regenerate every cell, allocate resources,
step every agent; always returns `Ok(())`. -/
def World.update (w : World) : World × Except SimulationError Unit :=
  let w1 := { w with cells := w.cells.map (fun c => (Cell.update c).1) }
  let w2 := allocate_resources w1
  let w3 := step_all_agents w2
  (w3, .ok ())

/-- Iterated ticks (for the "every subsequent tick" claims). -/
def updateIter (w : World) : Nat → World
  | 0 => w
  | n + 1 => updateIter (World.update w).1 n

/-- The documented Cell invariant: current values within their caps
(the lower bounds are automatic over `Nat`). -/
def cellInv (c : Cell) : Prop :=
  c.cur_resource ≤ c.max_resource ∧ c.regen_rate ≤ c.max_regen_rate

instance (c : Cell) : Decidable (cellInv c) := by
  unfold cellInv
  infer_instance

/-- A 2x1 world whose single agent (rate 5, 1 HP) receives 3 resource, stays
hungry, moves east and dies of the movement cost — skipping `metabolize`. -/
def Wmove : World :=
  ⟨(2, 1), [Cell.new 0 2 10 1 3, Cell.new 1 4 10 0 3], [Agent.new 0 0 5 0 1 true], 1⟩

/-- A 1x1 world whose single agent is fully fed and survives the tick. -/
def Wfed : World :=
  ⟨(1, 1), [Cell.new 0 10 20 0 3], [Agent.new 0 0 3 0 5 true], 1⟩

/-- A 1x1 world holding one dead agent with nonzero frozen fields. -/
def Wdead : World :=
  ⟨(1, 1), [Cell.new 0 10 20 1 3], [Agent.new 0 0 3 2 0 false], 1⟩

/-- A 1x1 world holding one dead agent (second copy, for a separate claim). -/
def Wdead2 : World :=
  ⟨(1, 1), [Cell.new 0 10 20 1 3], [Agent.new 0 0 4 7 0 false], 1⟩

/-- Scenario C world: one cell with 10 resource, two resident agents of
consumption rate 7. -/
def Wshare : World :=
  ⟨(1, 1), [Cell.new 0 10 20 0 3], [Agent.new 0 0 7 0 3 true, Agent.new 1 0 7 0 3 true], 2⟩

/-- Scenario C world again (second copy, for a separate claim). -/
def Wshare2 : World :=
  ⟨(1, 1), [Cell.new 0 10 20 0 3], [Agent.new 0 0 7 0 3 true, Agent.new 1 0 7 0 3 true], 2⟩

/-- A 2x1 world whose agent dies of the movement cost (for death recycling). -/
def Wdie : World :=
  ⟨(2, 1), [Cell.new 0 3 10 0 3, Cell.new 1 4 10 0 3], [Agent.new 0 0 5 3 1 true], 1⟩

/-- A 2x2 world with no agents. -/
def Wempty : World :=
  ⟨(2, 2), [Cell.new 0 5 10 2 3, Cell.new 1 10 10 1 3, Cell.new 2 0 10 0 3,
            Cell.new 3 9 10 3 3], [], 1⟩

/-! ### Generic list lemmas -/

theorem getD_set_ne {α : Type} (l : List α) (i j : Nat) (a d : α) (h : i ≠ j) :
    (l.set i a).getD j d = l.getD j d := by
  simp [List.getD, List.getElem?_set_ne h]

theorem getD_set_self {α : Type} (l : List α) (i : Nat) (a d : α) (h : i < l.length) :
    (l.set i a).getD i d = a := by
  simp [List.getD, List.getElem?_set_self, h]

theorem getD_of_length_le {α : Type} (l : List α) (i : Nat) (d : α) (h : l.length ≤ i) :
    l.getD i d = d := by
  simp [List.getD, List.getElem?_eq_none h]

theorem getD_map {α β : Type} (l : List α) (f : α → β) (i : Nat) (d : α) (e : β)
    (h : i < l.length) : (l.map f).getD i e = f (l.getD i d) := by
  simp [List.getD, List.getElem?_map, List.getElem?_eq_getElem h]

theorem range_split (n c : Nat) (h : c < n) :
    List.range n = List.range c ++ c :: (List.range (n - (c + 1))).map ((c + 1) + ·) := by
  have h1 : n = (c + 1) + (n - (c + 1)) := by omega
  calc List.range n
      = List.range ((c + 1) + (n - (c + 1))) := by rw [← h1]
    _ = List.range (c + 1) ++ (List.range (n - (c + 1))).map ((c + 1) + ·) :=
        List.range_add (c + 1) (n - (c + 1))
    _ = (List.range c ++ [c]) ++ (List.range (n - (c + 1))).map ((c + 1) + ·) := by
        rw [List.range_succ]
    _ = List.range c ++ c :: (List.range (n - (c + 1))).map ((c + 1) + ·) := by
        simp

theorem foldl_split {α β : Type} (f : β → α → β) (init : β) (l1 l2 : List α) (x : α) :
    (l1 ++ x :: l2).foldl f init = l2.foldl f (f (l1.foldl f init) x) := by
  rw [List.foldl_append]
  rfl

/-! ### residentIndices lemmas -/

theorem mem_residentIndices {agents : List Agent} {cid i : Nat} :
    i ∈ residentIndices agents cid ↔
      i < agents.length ∧ (agents.getD i defaultAgent).alive = true ∧
        (agents.getD i defaultAgent).cid = cid := by
  simp [residentIndices, List.mem_filter, List.mem_range, and_assoc]

theorem nodup_residentIndices (agents : List Agent) (cid : Nat) :
    (residentIndices agents cid).Nodup :=
  (List.nodup_range agents.length).filter _

/-! ### serveAgents lemmas -/

theorem serveAgents_length (idxs : List Nat) (ags : List Agent) (b r : Nat) :
    (serveAgents ags idxs b r).1.length = ags.length := by
  induction idxs generalizing ags r with
  | nil => rfl
  | cons i rest ih => simp [serveAgents, ih, List.length_set]

theorem serveAgents_getD_notmem (idxs : List Nat) (ags : List Agent) (b r j : Nat)
    (h : j ∉ idxs) :
    (serveAgents ags idxs b r).1.getD j defaultAgent = ags.getD j defaultAgent := by
  induction idxs generalizing ags r with
  | nil => rfl
  | cons i rest ih =>
      have hji : j ≠ i := fun he => h (by simp [he])
      have hjr : j ∉ rest := fun he => h (by simp [he])
      rw [serveAgents, ih _ _ hjr, getD_set_ne _ _ _ _ _ (fun he => hji he.symm)]

theorem serveAgents_getD_shape (idxs : List Nat) (ags : List Agent) (b r j : Nat) :
    (serveAgents ags idxs b r).1.getD j defaultAgent = ags.getD j defaultAgent ∨
    (serveAgents ags idxs b r).1.getD j defaultAgent =
      { ags.getD j defaultAgent with
        allocated_resource := min b (ags.getD j defaultAgent).consumption_rate } := by
  induction idxs generalizing ags r with
  | nil => exact Or.inl rfl
  | cons i rest ih =>
      rw [serveAgents]
      rcases Nat.lt_or_ge i ags.length with hlt | hge
      · by_cases hji : j = i
        · subst hji
          rcases ih (ags.set j (Agent.retrieve_resource (ags.getD j defaultAgent) b).1) (r + (Agent.retrieve_resource (ags.getD j defaultAgent) b).2) with h1 | h1 <;>
            rw [h1, getD_set_self _ _ _ _ hlt] <;>
            simp [Agent.retrieve_resource]
        · rcases ih (ags.set i (Agent.retrieve_resource (ags.getD i defaultAgent) b).1) (r + (Agent.retrieve_resource (ags.getD i defaultAgent) b).2) with h1 | h1 <;>
            rw [h1, getD_set_ne _ _ _ _ _ (fun he => hji he.symm)]
          · exact Or.inl rfl
          · exact Or.inr rfl
      · rw [List.set_eq_of_length_le hge]
        exact ih ags _

theorem serveAgents_fields (idxs : List Nat) (ags : List Agent) (b r j : Nat) :
    ((serveAgents ags idxs b r).1.getD j defaultAgent).alive =
      (ags.getD j defaultAgent).alive ∧
    ((serveAgents ags idxs b r).1.getD j defaultAgent).cid =
      (ags.getD j defaultAgent).cid ∧
    ((serveAgents ags idxs b r).1.getD j defaultAgent).consumption_rate =
      (ags.getD j defaultAgent).consumption_rate ∧
    ((serveAgents ags idxs b r).1.getD j defaultAgent).health_point =
      (ags.getD j defaultAgent).health_point := by
  rcases serveAgents_getD_shape idxs ags b r j with h | h <;> rw [h] <;> simp

theorem getD_set_rate (ags : List Agent) (i j : Nat) (b : Nat) :
    ((ags.set i (Agent.retrieve_resource (ags.getD i defaultAgent) b).1).getD j
        defaultAgent).consumption_rate =
      (ags.getD j defaultAgent).consumption_rate := by
  by_cases hji : j = i
  · subst hji
    rcases Nat.lt_or_ge j ags.length with hlt | hge
    · rw [getD_set_self _ _ _ _ hlt]
      simp [Agent.retrieve_resource]
    · rw [List.set_eq_of_length_le hge]
  · rw [getD_set_ne _ _ _ _ _ (fun he => hji he.symm)]

theorem serveAgents_snd (idxs : List Nat) (ags : List Agent) (b r : Nat) :
    (serveAgents ags idxs b r).2 =
      r + (idxs.map (fun i => b - min b (ags.getD i defaultAgent).consumption_rate)).sum := by
  induction idxs generalizing ags r with
  | nil => simp [serveAgents]
  | cons i rest ih =>
      rw [serveAgents, ih]
      have hmap :
          rest.map (fun j => b - min b
              (((ags.set i (Agent.retrieve_resource (ags.getD i defaultAgent) b).1).getD j
                defaultAgent)).consumption_rate) =
          rest.map (fun j => b - min b (ags.getD j defaultAgent).consumption_rate) := by
        refine List.map_congr_left (fun j _ => ?_)
        rw [getD_set_rate]
      rw [hmap]
      simp [Agent.retrieve_resource]
      omega

theorem serveAgents_getD_mem (idxs : List Nat) (ags : List Agent) (b r j : Nat)
    (hnd : idxs.Nodup) (hlt : ∀ i ∈ idxs, i < ags.length) (hj : j ∈ idxs) :
    (serveAgents ags idxs b r).1.getD j defaultAgent =
      { ags.getD j defaultAgent with
        allocated_resource := min b (ags.getD j defaultAgent).consumption_rate } := by
  induction idxs generalizing ags r with
  | nil => exact absurd hj (List.not_mem_nil j)
  | cons i rest ih =>
      have hnr : rest.Nodup := hnd.of_cons
      have hir : i ∉ rest := by
        intro hmem
        exact (List.nodup_cons.mp hnd).1 hmem
      rw [serveAgents]
      rcases List.mem_cons.mp hj with hji | hjr
      · subst hji
        rw [serveAgents_getD_notmem _ _ _ _ _ hir,
          getD_set_self _ _ _ _ (hlt j (List.mem_cons_self j rest))]
        simp [Agent.retrieve_resource]
      · have hji : j ≠ i := fun he => hir (he ▸ hjr)
        have hlt2 : ∀ k ∈ rest,
            k < (ags.set i (Agent.retrieve_resource (ags.getD i defaultAgent) b).1).length := by
          intro k hk
          rw [List.length_set]
          exact hlt k (List.mem_cons_of_mem i hk)
        rw [ih _ _ hnr hlt2 hjr, getD_set_ne _ _ _ _ _ (fun he => hji he.symm)]

/-! ### allocateCell and allocate_resources lemmas -/

theorem allocateCell_lengths (bks : Nat → List Nat) (st : List Cell × List Agent)
    (cid : Nat) :
    (allocateCell bks st cid).1.length = st.1.length ∧
    (allocateCell bks st cid).2.length = st.2.length := by
  simp only [allocateCell]
  split
  · exact ⟨rfl, rfl⟩
  · split
    · exact ⟨rfl, rfl⟩
    · exact ⟨by simp [List.length_set], serveAgents_length _ _ _ _⟩

theorem allocateCell_cell_frame (bks : Nat → List Nat) (st : List Cell × List Agent)
    (cid c : Nat) (h : c ≠ cid) :
    (allocateCell bks st cid).1.getD c defaultCell = st.1.getD c defaultCell := by
  simp only [allocateCell]
  split
  · rfl
  · split
    · rfl
    · exact getD_set_ne _ _ _ _ _ (fun he => h he.symm)

theorem allocateCell_agent_frame (bks : Nat → List Nat) (st : List Cell × List Agent)
    (cid j : Nat) (h : j ∉ bks cid) :
    (allocateCell bks st cid).2.getD j defaultAgent = st.2.getD j defaultAgent := by
  simp only [allocateCell]
  split
  · rfl
  · split
    · rfl
    · exact serveAgents_getD_notmem _ _ _ _ _ h

theorem allocateCell_agent_fields (bks : Nat → List Nat) (st : List Cell × List Agent)
    (cid j : Nat) :
    ((allocateCell bks st cid).2.getD j defaultAgent).alive =
      (st.2.getD j defaultAgent).alive ∧
    ((allocateCell bks st cid).2.getD j defaultAgent).cid =
      (st.2.getD j defaultAgent).cid ∧
    ((allocateCell bks st cid).2.getD j defaultAgent).consumption_rate =
      (st.2.getD j defaultAgent).consumption_rate := by
  simp only [allocateCell]
  split
  · exact ⟨rfl, rfl, rfl⟩
  · split
    · exact ⟨rfl, rfl, rfl⟩
    · obtain ⟨h1, h2, h3, _⟩ := serveAgents_fields (bks cid) st.2
        ((st.1.getD cid defaultCell).cur_resource / (bks cid).length)
        ((st.1.getD cid defaultCell).cur_resource -
          (st.1.getD cid defaultCell).cur_resource / (bks cid).length * (bks cid).length) j
      exact ⟨h1, h2, h3⟩

theorem foldAlloc_lengths (bks : Nat → List Nat) (l : List Nat)
    (st : List Cell × List Agent) :
    (l.foldl (allocateCell bks) st).1.length = st.1.length ∧
    (l.foldl (allocateCell bks) st).2.length = st.2.length := by
  induction l generalizing st with
  | nil => exact ⟨rfl, rfl⟩
  | cons c rest ih =>
      rw [List.foldl_cons]
      obtain ⟨h1, h2⟩ := ih (allocateCell bks st c)
      obtain ⟨g1, g2⟩ := allocateCell_lengths bks st c
      exact ⟨h1.trans g1, h2.trans g2⟩

theorem foldAlloc_cell_frame (bks : Nat → List Nat) (l : List Nat)
    (st : List Cell × List Agent) (c : Nat) (h : c ∉ l) :
    (l.foldl (allocateCell bks) st).1.getD c defaultCell = st.1.getD c defaultCell := by
  induction l generalizing st with
  | nil => rfl
  | cons c0 rest ih =>
      have hc0 : c ≠ c0 := fun he => h (by simp [he])
      have hr : c ∉ rest := fun he => h (by simp [he])
      rw [List.foldl_cons, ih _ hr, allocateCell_cell_frame _ _ _ _ hc0]

theorem foldAlloc_agent_frame (bks : Nat → List Nat) (l : List Nat)
    (st : List Cell × List Agent) (j : Nat) (h : ∀ c ∈ l, j ∉ bks c) :
    (l.foldl (allocateCell bks) st).2.getD j defaultAgent = st.2.getD j defaultAgent := by
  induction l generalizing st with
  | nil => rfl
  | cons c0 rest ih =>
      rw [List.foldl_cons, ih _ (fun c hc => h c (List.mem_cons_of_mem c0 hc)),
        allocateCell_agent_frame _ _ _ _ (h c0 (List.mem_cons_self c0 rest))]

theorem foldAlloc_agent_fields (bks : Nat → List Nat) (l : List Nat)
    (st : List Cell × List Agent) (j : Nat) :
    ((l.foldl (allocateCell bks) st).2.getD j defaultAgent).alive =
      (st.2.getD j defaultAgent).alive ∧
    ((l.foldl (allocateCell bks) st).2.getD j defaultAgent).cid =
      (st.2.getD j defaultAgent).cid ∧
    ((l.foldl (allocateCell bks) st).2.getD j defaultAgent).consumption_rate =
      (st.2.getD j defaultAgent).consumption_rate := by
  induction l generalizing st with
  | nil => exact ⟨rfl, rfl, rfl⟩
  | cons c0 rest ih =>
      rw [List.foldl_cons]
      obtain ⟨h1, h2, h3⟩ := ih (allocateCell bks st c0)
      obtain ⟨g1, g2, g3⟩ := allocateCell_agent_fields bks st c0 j
      exact ⟨h1.trans g1, h2.trans g2, h3.trans g3⟩

theorem allocate_resources_lengths (w : World) :
    (allocate_resources w).cells.length = w.cells.length ∧
    (allocate_resources w).agents.length = w.agents.length := by
  simp only [allocate_resources]
  exact foldAlloc_lengths _ _ _

theorem allocate_resources_dead_frame (w : World) (i : Nat)
    (h : (w.agents.getD i defaultAgent).alive = false) :
    (allocate_resources w).agents.getD i defaultAgent = w.agents.getD i defaultAgent := by
  simp only [allocate_resources]
  apply foldAlloc_agent_frame
  intro c _ hmem
  have halive := (mem_residentIndices.mp hmem).2.1
  rw [h] at halive
  cases halive

/-! ### step_agent lemmas -/

theorem handle_agent_death_agents (w : World) (i : Nat) :
    (handle_agent_death w i).agents = w.agents := rfl

theorem metabolize_alloc (a : Agent) : a.metabolize.allocated_resource = 0 := by
  simp only [Agent.metabolize]
  split <;> split <;> rfl

theorem update_fst_of_alive (a : Agent) (h : a.alive = true) :
    (a.update).1 = a.metabolize := by
  simp [Agent.update, h]

theorem step_agent_dead (w : World) (i : Nat)
    (h : (w.agents.getD i defaultAgent).alive = false) : step_agent w i = w := by
  simp only [step_agent]
  rw [h]
  simp

theorem step_agent_of_alive (w : World) (i : Nat)
    (h : (w.agents.getD i defaultAgent).alive = true) :
    step_agent w i =
      if (agentAfterMove w i).alive = false then
        handle_agent_death { w with agents := w.agents.set i (agentAfterMove w i) } i
      else if ((agentAfterMove w i).update).1.alive = false then
        handle_agent_death
          { w with agents := w.agents.set i ((agentAfterMove w i).update).1 } i
      else
        { w with agents := w.agents.set i ((agentAfterMove w i).update).1 } := by
  simp only [step_agent]
  rw [h]
  simp [List.set_set]

theorem alive_getD_lt (l : List Agent) (i : Nat)
    (h : (l.getD i defaultAgent).alive = true) : i < l.length := by
  by_contra hge
  rw [getD_of_length_le _ _ _ (Nat.le_of_not_lt hge)] at h
  simp [defaultAgent] at h

theorem step_agent_agents_length (w : World) (i : Nat) :
    (step_agent w i).agents.length = w.agents.length := by
  by_cases h : (w.agents.getD i defaultAgent).alive = false
  · rw [step_agent_dead w i h]
  · rw [step_agent_of_alive w i (by revert h; cases (w.agents.getD i defaultAgent).alive <;> simp)]
    split
    · rw [handle_agent_death_agents]
      simp [List.length_set]
    · split
      · rw [handle_agent_death_agents]
        simp [List.length_set]
      · simp [List.length_set]

theorem step_agent_agent_frame (w : World) (i j : Nat) (h : j ≠ i) :
    (step_agent w i).agents.getD j defaultAgent = w.agents.getD j defaultAgent := by
  by_cases ha : (w.agents.getD i defaultAgent).alive = false
  · rw [step_agent_dead w i ha]
  · rw [step_agent_of_alive w i (by revert ha; cases (w.agents.getD i defaultAgent).alive <;> simp)]
    have hne : i ≠ j := fun he => h he.symm
    split
    · rw [handle_agent_death_agents]
      exact getD_set_ne _ _ _ _ _ hne
    · split
      · rw [handle_agent_death_agents]
        exact getD_set_ne _ _ _ _ _ hne
      · exact getD_set_ne _ _ _ _ _ hne

theorem step_agent_self_alloc (w : World) (i : Nat)
    (h : ((step_agent w i).agents.getD i defaultAgent).alive = true) :
    ((step_agent w i).agents.getD i defaultAgent).allocated_resource = 0 := by
  by_cases ha : (w.agents.getD i defaultAgent).alive = false
  · rw [step_agent_dead w i ha] at h
    rw [step_agent_dead w i ha]
    rw [h] at ha
    cases ha
  · have hal : (w.agents.getD i defaultAgent).alive = true := by
      revert ha; cases (w.agents.getD i defaultAgent).alive <;> simp
    have hlen : i < w.agents.length := alive_getD_lt _ _ hal
    rw [step_agent_of_alive w i hal] at h ⊢
    by_cases h1 : (agentAfterMove w i).alive = false
    · rw [if_pos h1] at h
      rw [handle_agent_death_agents, getD_set_self _ _ _ _ hlen] at h
      rw [h] at h1
      cases h1
    · rw [if_neg h1] at h ⊢
      have ha1 : (agentAfterMove w i).alive = true := by
        revert h1; cases (agentAfterMove w i).alive <;> simp
      by_cases h2 : ((agentAfterMove w i).update).1.alive = false
      · rw [if_pos h2]
        rw [handle_agent_death_agents, getD_set_self _ _ _ _ hlen,
          update_fst_of_alive _ ha1, metabolize_alloc]
      · rw [if_neg h2]
        rw [getD_set_self _ _ _ _ hlen, update_fst_of_alive _ ha1, metabolize_alloc]

theorem step_all_length (l : List Nat) (w : World) :
    (l.foldl step_agent w).agents.length = w.agents.length := by
  induction l generalizing w with
  | nil => rfl
  | cons c rest ih => rw [List.foldl_cons, ih, step_agent_agents_length]

theorem step_all_frame_notmem (l : List Nat) (w : World) (i : Nat) (h : i ∉ l) :
    (l.foldl step_agent w).agents.getD i defaultAgent = w.agents.getD i defaultAgent := by
  induction l generalizing w with
  | nil => rfl
  | cons c rest ih =>
      have hic : i ≠ c := fun he => h (by simp [he])
      have hir : i ∉ rest := fun he => h (by simp [he])
      rw [List.foldl_cons, ih _ hir, step_agent_agent_frame _ _ _ hic]

theorem step_all_dead_frame (l : List Nat) (w : World) (i : Nat)
    (h : (w.agents.getD i defaultAgent).alive = false) :
    (l.foldl step_agent w).agents.getD i defaultAgent = w.agents.getD i defaultAgent := by
  induction l generalizing w with
  | nil => rfl
  | cons c rest ih =>
      rw [List.foldl_cons]
      by_cases hci : c = i
      · subst hci
        rw [step_agent_dead w c h]
        exact ih w h
      · have hframe := step_agent_agent_frame w c i (fun he => hci he.symm)
        rw [ih _ (by rw [hframe]; exact h), hframe]

theorem step_all_alloc_of_mem (l : List Nat) (w : World) (i : Nat) (hmem : i ∈ l)
    (h : ((l.foldl step_agent w).agents.getD i defaultAgent).alive = true) :
    ((l.foldl step_agent w).agents.getD i defaultAgent).allocated_resource = 0 := by
  induction l generalizing w with
  | nil => exact absurd hmem (List.not_mem_nil i)
  | cons c rest ih =>
      rw [List.foldl_cons] at h ⊢
      by_cases hr : i ∈ rest
      · exact ih _ hr h
      · have hic : i = c := by
          rcases List.mem_cons.mp hmem with h1 | h1
          · exact h1
          · exact absurd h1 hr
        subst hic
        rw [step_all_frame_notmem rest _ i hr] at h ⊢
        exact step_agent_self_alloc w i h

/-! ### decide_move fold lemmas -/

theorem dmFold_absorb (l : List (Nat × Nat)) (acc : Nat × Nat)
    (h : ∀ p ∈ l, p.2 < acc.2) :
    l.foldl (fun acc y => if acc.2 ≤ y.2 then y else acc) acc = acc := by
  induction l with
  | nil => rfl
  | cons y rest ih =>
      rw [List.foldl_cons, if_neg (Nat.not_le.mpr (h y (List.mem_cons_self y rest)))]
      exact ih (fun p hp => h p (List.mem_cons_of_mem y hp))

theorem dmFold_bound (l : List (Nat × Nat)) (acc : Nat × Nat) (r : Nat)
    (hacc : acc.2 ≤ r) (h : ∀ p ∈ l, p.2 ≤ r) :
    (l.foldl (fun acc y => if acc.2 ≤ y.2 then y else acc) acc).2 ≤ r := by
  induction l generalizing acc with
  | nil => exact hacc
  | cons y rest ih =>
      rw [List.foldl_cons]
      have hy := h y (List.mem_cons_self y rest)
      have hrest := fun p hp => h p (List.mem_cons_of_mem y hp)
      by_cases hc : acc.2 ≤ y.2
      · rw [if_pos hc]; exact ih y hy hrest
      · rw [if_neg hc]; exact ih acc hacc hrest

theorem dmFold_last (l1 : List (Nat × Nat)) (c r : Nat) (l2 : List (Nat × Nat))
    (acc : Nat × Nat) (hacc : acc.2 ≤ r) (h1 : ∀ p ∈ l1, p.2 ≤ r)
    (h2 : ∀ p ∈ l2, p.2 < r) :
    (l1 ++ (c, r) :: l2).foldl (fun acc y => if acc.2 ≤ y.2 then y else acc) acc
      = (c, r) := by
  rw [foldl_split]
  have hb : (l1.foldl (fun acc y => if acc.2 ≤ y.2 then y else acc) acc).2 ≤ r :=
    dmFold_bound l1 acc r hacc h1
  rw [if_pos hb]
  exact dmFold_absorb l2 (c, r) h2

/-- C1 (amended): `decide_move` returns the neighbor with the greatest resource
value provided it is positive; ties are broken in favor of the LAST maximal
element supplied (Rust's `max_by_key` keeps the last of equal maxima); it
returns no move on an empty list or when every neighbor has zero resource.  On
`[(1,0),(2,0)]` it returns no-move and on `[(1,4),(2,9),(3,9)]` it returns
cell 3. -/
theorem C1_decide_move_last_max :
    decide_move [] = none ∧
    (∀ l : List (Nat × Nat), (∀ p ∈ l, p.2 = 0) → decide_move l = none) ∧
    (∀ (l1 : List (Nat × Nat)) (c r : Nat) (l2 : List (Nat × Nat)),
      0 < r → (∀ p ∈ l1, p.2 ≤ r) → (∀ p ∈ l2, p.2 < r) →
      decide_move (l1 ++ (c, r) :: l2) = some c) ∧
    decide_move [(1, 0), (2, 0)] = none ∧
    decide_move [(1, 4), (2, 9), (3, 9)] = some 3 := by
  refine ⟨rfl, ?_, ?_, by decide, by decide⟩
  · intro l hz
    match l with
    | [] => rfl
    | x :: xs =>
        have hb : (xs.foldl (fun acc y => if acc.2 ≤ y.2 then y else acc) x).2 ≤ 0 :=
          dmFold_bound xs x 0 (Nat.le_of_eq (hz x (List.mem_cons_self x xs)))
            (fun p hp => Nat.le_of_eq (hz p (List.mem_cons_of_mem x hp)))
        simp only [decide_move]
        rw [if_neg (by omega)]
  · intro l1 c r l2 hr h1 h2
    match l1 with
    | [] =>
        simp only [List.nil_append, decide_move]
        rw [dmFold_absorb l2 (c, r) h2, if_pos hr]
    | x :: l1x =>
        simp only [List.cons_append, decide_move]
        rw [dmFold_last l1x c r l2 x (h1 x (List.mem_cons_self x l1x))
          (fun p hp => h1 p (List.mem_cons_of_mem x hp)) h2, if_pos hr]

/-- C1 counterexample: on `[(1,4),(2,9),(3,9)]`, `decide_move` returns cell 3
(the last maximal neighbor), not cell 2 as the claim states. -/
theorem C1_counterexample :
    decide_move [(1, 4), (2, 9), (3, 9)] = some 3 ∧
    decide_move [(1, 4), (2, 9), (3, 9)] ≠ some 2 := by decide

/-- C1 witness: the amended theorem applied at a concrete tie-free input. -/
theorem C1_witness : decide_move [(5, 3), (7, 9), (4, 2)] = some 7 :=
  C1_decide_move_last_max.2.2.1 [(5, 3)] 7 9 [(4, 2)] (by decide) (by decide)
    (by decide)

/-- C4 counterexample: `Cell::new` stores its arguments without clamping, so
it does not establish the bounds invariant. -/
theorem C4_counterexample :
    ¬ ((Cell.new 0 150 100 7 5).cur_resource ≤ (Cell.new 0 150 100 7 5).max_resource) := by
  decide

/-- C4 (amended): `Cell::new` preserves the bounds only when its arguments
already satisfy them; every other Cell operation (`add_resource`,
`resource_consumption`, `take_up_to`, `increase_rate`, `update`) preserves the
invariant, and the saturating operations re-establish their respective bound
unconditionally (the lower bounds are automatic over `Nat`, mirroring `u32`). -/
theorem C4_cell_bounds :
    (∀ i cur mx rr mrr, cur ≤ mx → rr ≤ mrr → cellInv (Cell.new i cur mx rr mrr)) ∧
    (∀ (c : Cell) (r : Nat), cellInv c → cellInv (c.add_resource r)) ∧
    (∀ (c : Cell) (r : Nat), cellInv c → cellInv (c.resource_consumption r).1) ∧
    (∀ (c : Cell) (want : Nat), cellInv c → cellInv (c.take_up_to want).1) ∧
    (∀ (c : Cell) (d : Nat), cellInv c → cellInv (c.increase_rate d)) ∧
    (∀ c : Cell, cellInv c → cellInv (c.update).1) ∧
    (∀ (c : Cell) (r : Nat), (c.add_resource r).cur_resource ≤ c.max_resource) ∧
    (∀ (c : Cell) (d : Nat), (c.increase_rate d).regen_rate ≤ c.max_regen_rate) ∧
    (∀ c : Cell, ((c.update).1).cur_resource ≤ c.max_resource) := by
  refine ⟨fun i cur mx rr mrr h1 h2 => ⟨h1, h2⟩, ?_, ?_, ?_, ?_, ?_,
    fun c r => Nat.min_le_right _ _, fun c d => Nat.min_le_right _ _,
    fun c => Nat.min_le_right _ _⟩
  · intro c r h
    exact ⟨Nat.min_le_right _ _, h.2⟩
  · intro c r h
    unfold Cell.resource_consumption
    split
    · exact h
    · exact ⟨Nat.le_trans (Nat.sub_le _ _) h.1, h.2⟩
  · intro c want h
    exact ⟨Nat.le_trans (Nat.sub_le _ _) h.1, h.2⟩
  · intro c d h
    exact ⟨h.1, Nat.min_le_right _ _⟩
  · intro c h
    exact ⟨Nat.min_le_right _ _, h.2⟩

/-- C4 witness: the amended theorem applied at a concrete cell. -/
theorem C4_witness :
    cellInv (Cell.new 0 90 100 1 5) ∧ cellInv ((Cell.new 0 90 100 1 5).add_resource 20) :=
  ⟨by decide, C4_cell_bounds.2.1 (Cell.new 0 90 100 1 5) 20 (by decide)⟩

/-! ### One-tick frame lemma for dead agents -/

theorem update_dead_frame (w : World) (i : Nat)
    (h : (w.agents.getD i defaultAgent).alive = false) :
    (World.update w).1.agents.getD i defaultAgent = w.agents.getD i defaultAgent ∧
    (World.update w).1.agents.length = w.agents.length := by
  have h2 := allocate_resources_dead_frame
    { w with cells := w.cells.map (fun c => (Cell.update c).1) } i h
  have h3 := step_all_dead_frame
    (List.range (allocate_resources
      { w with cells := w.cells.map (fun c => (Cell.update c).1) }).agents.length)
    (allocate_resources { w with cells := w.cells.map (fun c => (Cell.update c).1) })
    i (by rw [h2]; exact h)
  constructor
  · exact h3.trans h2
  · have l1 := step_all_length
      (List.range (allocate_resources
        { w with cells := w.cells.map (fun c => (Cell.update c).1) }).agents.length)
      (allocate_resources { w with cells := w.cells.map (fun c => (Cell.update c).1) })
    have l2 := (allocate_resources_lengths
      { w with cells := w.cells.map (fun c => (Cell.update c).1) }).2
    exact l1.trans l2

/-- C3: soft-delete freezing — a dead agent's whole record (in particular its
`cid`, `health_point` and `allocated_resource`) is unchanged by every
subsequent `World::update` tick, and the agent collection keeps its length
(the agent is never removed). -/
theorem C3_soft_delete_frozen (w : World) (i : Nat)
    (h : (w.agents.getD i defaultAgent).alive = false) (n : Nat) :
    (updateIter w n).agents.getD i defaultAgent = w.agents.getD i defaultAgent ∧
    (updateIter w n).agents.length = w.agents.length := by
  induction n generalizing w with
  | zero => exact ⟨rfl, rfl⟩
  | succ m ih =>
      obtain ⟨h1, h2⟩ := update_dead_frame w i h
      obtain ⟨g1, g2⟩ := ih (World.update w).1 (by rw [h1]; exact h)
      exact ⟨g1.trans h1, g2.trans h2⟩

/-- C3 witness: a concrete dead agent with nonzero frozen fields, unchanged
over three ticks. -/
theorem C3_witness :
    (Wdead.agents.getD 0 defaultAgent).alive = false ∧
    (updateIter Wdead 3).agents.getD 0 defaultAgent = Wdead.agents.getD 0 defaultAgent ∧
    (updateIter Wdead 3).agents.length = Wdead.agents.length :=
  ⟨by decide, (C3_soft_delete_frozen Wdead 0 (by decide) 3).1,
    (C3_soft_delete_frozen Wdead 0 (by decide) 3).2⟩

/-- C5 counterexample: in `Wmove` the single agent (rate 5, 1 HP) is granted 3
resource, stays hungry, moves and dies of the movement cost, so `metabolize`
never runs and after `World::update` its `allocated_resource` is 3, not 0. -/
theorem C5_counterexample :
    ((World.update Wmove).1.agents.getD 0 defaultAgent).alive = false ∧
    ((World.update Wmove).1.agents.getD 0 defaultAgent).allocated_resource = 3 := by
  decide

/-- C5 (amended): `allocated_resource` is reset to 0 by `metabolize`, which an
agent only reaches if it survives the movement phase; hence after any
`World::update` every agent that is still alive has `allocated_resource = 0`,
while an agent that died of the movement cost retains the allocation granted
that tick (see the counterexample) and an agent dead before the tick keeps its
frozen value. -/
theorem C5_alloc_reset_alive (w : World) (i : Nat)
    (h : ((World.update w).1.agents.getD i defaultAgent).alive = true) :
    ((World.update w).1.agents.getD i defaultAgent).allocated_resource = 0 := by
  have hupd : (World.update w).1 =
      (List.range (allocate_resources
        { w with cells := w.cells.map (fun c => (Cell.update c).1) }).agents.length).foldl
        step_agent
        (allocate_resources { w with cells := w.cells.map (fun c => (Cell.update c).1) }) :=
    rfl
  rw [hupd] at h ⊢
  by_cases hmem : i ∈ List.range (allocate_resources
      { w with cells := w.cells.map (fun c => (Cell.update c).1) }).agents.length
  · exact step_all_alloc_of_mem _ _ _ hmem h
  · rw [step_all_frame_notmem _ _ _ hmem] at h
    exact absurd (List.mem_range.mpr (alive_getD_lt _ _ h)) hmem

/-- C5 witness: a fed agent survives the tick and ends with zero allocation. -/
theorem C5_witness :
    ((World.update Wfed).1.agents.getD 0 defaultAgent).alive = true ∧
    ((World.update Wfed).1.agents.getD 0 defaultAgent).allocated_resource = 0 :=
  ⟨by decide, C5_alloc_reset_alive Wfed 0 (by decide)⟩

/-- C7: `Cell::resource_consumption` is exact-or-fail — on shortfall it
returns `NotEnoughResources` carrying the available amount and leaves the cell
unchanged; otherwise it deducts exactly the requested amount, changes no other
field, and returns the amount. -/
theorem C7_resource_consumption (c : Cell) (amount : Nat) :
    (c.cur_resource < amount →
      (c.resource_consumption amount).1 = c ∧
      (c.resource_consumption amount).2 =
        Except.error (SimulationError.NotEnoughResources c.cur_resource)) ∧
    (amount ≤ c.cur_resource →
      (c.resource_consumption amount).1.cur_resource = c.cur_resource - amount ∧
      (c.resource_consumption amount).1.id = c.id ∧
      (c.resource_consumption amount).1.max_resource = c.max_resource ∧
      (c.resource_consumption amount).1.regen_rate = c.regen_rate ∧
      (c.resource_consumption amount).1.max_regen_rate = c.max_regen_rate ∧
      (c.resource_consumption amount).2 = Except.ok amount) := by
  constructor
  · intro h
    simp [Cell.resource_consumption, h]
  · intro h
    simp [Cell.resource_consumption, Nat.not_lt.mpr h]

/-- C7 witness: both branches at concrete cells. -/
theorem C7_witness :
    ((Cell.new 0 3 100 1 5).resource_consumption 5).1 = Cell.new 0 3 100 1 5 ∧
    ((Cell.new 0 3 100 1 5).resource_consumption 5).2 =
      Except.error (SimulationError.NotEnoughResources 3) :=
  (C7_resource_consumption (Cell.new 0 3 100 1 5) 5).1 (by decide)

/-- C8: `World::update` always returns `Ok(())` on a validly constructed
World; the agent-level `NotAlive` results of `move_to` and `update` are
discarded inside `step_agent` rather than propagated. -/
theorem C8_update_ok (w : World)
    (hcid : ∀ a ∈ w.agents, a.cid < w.cells.length)
    (hlen : w.cells.length = w.size.1 * w.size.2) :
    (World.update w).2 = Except.ok () := rfl

/-- C8 witness: the theorem applied at a concrete valid world. -/
theorem C8_witness :
    (∀ a ∈ Wshare.agents, a.cid < Wshare.cells.length) ∧
    Wshare.cells.length = Wshare.size.1 * Wshare.size.2 ∧
    (World.update Wshare).2 = Except.ok () :=
  ⟨by decide, by decide, C8_update_ok Wshare (by decide) (by decide)⟩

/-- C10: `Agent::retrieve_resource` has no aliveness guard — for every agent,
dead or alive, it overwrites `allocated_resource` with
`min offered consumption_rate` and returns the leftover; the tick-level
freeze of dead agents comes solely from `World::allocate_resources` skipping
non-alive agents when building its buckets. -/
theorem C10_retrieve_ignores_alive :
    (∀ (a : Agent) (resource : Nat),
      (a.retrieve_resource resource).1 =
        { a with allocated_resource := min resource a.consumption_rate } ∧
      (a.retrieve_resource resource).2 = resource - min resource a.consumption_rate) ∧
    (∀ (w : World) (i : Nat), (w.agents.getD i defaultAgent).alive = false →
      (allocate_resources w).agents.getD i defaultAgent = w.agents.getD i defaultAgent) :=
  ⟨fun _ _ => ⟨rfl, rfl⟩, allocate_resources_dead_frame⟩

/-- C10 witness: a dead agent is overwritten by a direct call yet untouched by
the allocation phase. -/
theorem C10_witness :
    ((Agent.new 0 0 4 7 0 false).retrieve_resource 10).1 =
      { Agent.new 0 0 4 7 0 false with allocated_resource := min 10 4 } ∧
    (Wdead2.agents.getD 0 defaultAgent).alive = false ∧
    (allocate_resources Wdead2).agents.getD 0 defaultAgent =
      Wdead2.agents.getD 0 defaultAgent :=
  ⟨(C10_retrieve_ignores_alive.1 (Agent.new 0 0 4 7 0 false) 10).1, by decide,
    C10_retrieve_ignores_alive.2 Wdead2 0 (by decide)⟩

/-! ### Zero-agent world lemmas -/

theorem foldl_fixed {α β : Type} (f : β → α → β) (st : β) (l : List α)
    (h : ∀ b a, f b a = b) : l.foldl f st = st := by
  induction l generalizing st with
  | nil => rfl
  | cons a rest ih => rw [List.foldl_cons, h st a]; exact ih st

theorem allocate_resources_empty (w : World) (h : w.agents = []) :
    allocate_resources w = w := by
  simp only [allocate_resources]
  have hb : ∀ st c, allocateCell (residentIndices w.agents) st c = st := by
    intro st c
    have hri : residentIndices w.agents c = [] := by rw [h]; rfl
    simp [allocateCell, hri]
  rw [foldl_fixed _ _ _ hb]

theorem step_all_empty (w : World) (h : w.agents = []) : step_all_agents w = w := by
  simp only [step_all_agents]
  rw [h]
  rfl

theorem update_empty_agents (w : World) (h : w.agents = []) :
    (World.update w).1 = { w with cells := w.cells.map (fun c => (Cell.update c).1) } := by
  show step_all_agents (allocate_resources
    { w with cells := w.cells.map (fun c => (Cell.update c).1) }) = _
  rw [allocate_resources_empty { w with cells := w.cells.map (fun c => (Cell.update c).1) } h,
    step_all_empty { w with cells := w.cells.map (fun c => (Cell.update c).1) } h]

/-- C9: a tick on a world with no agents never errors and changes only cell
resources — each cell regenerates to `min (cur_resource + regen_rate)
max_resource` (monotonically non-decreasing toward the cap when the bounds
invariant holds), while regen rates, the other cell fields, the grid size and
the empty agent collection are untouched. -/
theorem C9_zero_agent_frame (w : World) (hag : w.agents = []) :
    (World.update w).2 = Except.ok () ∧
    (World.update w).1.agents = [] ∧
    (World.update w).1.size = w.size ∧
    (World.update w).1.max_agents = w.max_agents ∧
    (World.update w).1.cells.length = w.cells.length ∧
    ∀ i, i < w.cells.length →
      (((w.cells.getD i defaultCell).max_resource ≤ U32MAX →
        ((World.update w).1.cells.getD i defaultCell).cur_resource =
          min ((w.cells.getD i defaultCell).cur_resource +
              (w.cells.getD i defaultCell).regen_rate)
            (w.cells.getD i defaultCell).max_resource ∧
        ((w.cells.getD i defaultCell).cur_resource ≤
            (w.cells.getD i defaultCell).max_resource →
          (w.cells.getD i defaultCell).cur_resource ≤
            ((World.update w).1.cells.getD i defaultCell).cur_resource ∧
          ((World.update w).1.cells.getD i defaultCell).cur_resource ≤
            (w.cells.getD i defaultCell).max_resource))) ∧
      ((World.update w).1.cells.getD i defaultCell).regen_rate =
        (w.cells.getD i defaultCell).regen_rate ∧
      ((World.update w).1.cells.getD i defaultCell).max_resource =
        (w.cells.getD i defaultCell).max_resource ∧
      ((World.update w).1.cells.getD i defaultCell).max_regen_rate =
        (w.cells.getD i defaultCell).max_regen_rate ∧
      ((World.update w).1.cells.getD i defaultCell).id =
        (w.cells.getD i defaultCell).id := by
  have hu := update_empty_agents w hag
  refine ⟨rfl, by rw [hu]; exact hag, by rw [hu], by rw [hu], ?_, ?_⟩
  · rw [hu]
    simp [List.length_map]
  · intro i hi
    have hg : (World.update w).1.cells.getD i defaultCell =
        (Cell.update (w.cells.getD i defaultCell)).1 := by
      rw [hu]
      exact getD_map w.cells _ i defaultCell defaultCell hi
    rw [hg]
    refine ⟨?_, rfl, rfl, rfl, rfl⟩
    intro hU
    constructor
    · show min (satAdd (w.cells.getD i defaultCell).cur_resource
          (w.cells.getD i defaultCell).regen_rate)
          (w.cells.getD i defaultCell).max_resource = _
      unfold satAdd
      omega
    · intro hinv
      show (w.cells.getD i defaultCell).cur_resource ≤
          min (satAdd (w.cells.getD i defaultCell).cur_resource
            (w.cells.getD i defaultCell).regen_rate)
            (w.cells.getD i defaultCell).max_resource ∧ _
      unfold satAdd
      constructor
      · omega
      · exact Nat.min_le_right _ _

/-- C9 witness: the theorem applied to a concrete 2x2 agent-free world. -/
theorem C9_witness :
    Wempty.agents = [] ∧
    (World.update Wempty).1.agents = [] ∧
    (World.update Wempty).1.cells.length = Wempty.cells.length :=
  ⟨by decide, (C9_zero_agent_frame Wempty (by decide)).2.1,
    (C9_zero_agent_frame Wempty (by decide)).2.2.2.2.1⟩

/-! ### Death handling lemmas -/

theorem step_agent_death_shape (w : World) (i : Nat)
    (halive : (w.agents.getD i defaultAgent).alive = true)
    (hdead : ((step_agent w i).agents.getD i defaultAgent).alive = false) :
    ∃ a : Agent,
      (step_agent w i).agents.getD i defaultAgent = a ∧
      step_agent w i = handle_agent_death { w with agents := w.agents.set i a } i := by
  have hlen := alive_getD_lt _ _ halive
  rw [step_agent_of_alive w i halive] at hdead ⊢
  by_cases h1 : (agentAfterMove w i).alive = false
  · refine ⟨agentAfterMove w i, ?_, ?_⟩
    · rw [if_pos h1, handle_agent_death_agents]
      exact getD_set_self _ _ _ _ hlen
    · rw [if_pos h1]
  · rw [if_neg h1] at hdead ⊢
    by_cases h2 : ((agentAfterMove w i).update).1.alive = false
    · refine ⟨((agentAfterMove w i).update).1, ?_, ?_⟩
      · rw [if_pos h2, handle_agent_death_agents]
        exact getD_set_self _ _ _ _ hlen
      · rw [if_pos h2]
    · rw [if_neg h2, getD_set_self _ _ _ _ hlen] at hdead
      exact absurd hdead h2

theorem min_satAdd_eq (cur mx amt : Nat) (h1 : cur ≤ mx) (h2 : mx ≤ U32MAX) :
    min (satAdd cur amt) mx = cur + min amt (mx - cur) := by
  unfold satAdd U32MAX
  unfold U32MAX at h2
  omega

theorem handle_agent_death_cells (w : World) (i d : Nat)
    (hd : (w.agents.getD i defaultAgent).cid = d)
    (hlt : d < w.cells.length)
    (hc : (w.cells.getD d defaultCell).cur_resource ≤
      (w.cells.getD d defaultCell).max_resource)
    (hr : (w.cells.getD d defaultCell).regen_rate ≤
      (w.cells.getD d defaultCell).max_regen_rate)
    (hU : (w.cells.getD d defaultCell).max_resource ≤ U32MAX)
    (hUr : (w.cells.getD d defaultCell).max_regen_rate ≤ U32MAX) :
    ((handle_agent_death w i).cells.getD d defaultCell).cur_resource =
      (w.cells.getD d defaultCell).cur_resource +
        min 5 ((w.cells.getD d defaultCell).max_resource -
          (w.cells.getD d defaultCell).cur_resource) ∧
    ((handle_agent_death w i).cells.getD d defaultCell).regen_rate =
      (w.cells.getD d defaultCell).regen_rate +
        min 1 ((w.cells.getD d defaultCell).max_regen_rate -
          (w.cells.getD d defaultCell).regen_rate) ∧
    ((handle_agent_death w i).cells.getD d defaultCell).id =
      (w.cells.getD d defaultCell).id ∧
    ((handle_agent_death w i).cells.getD d defaultCell).max_resource =
      (w.cells.getD d defaultCell).max_resource ∧
    ((handle_agent_death w i).cells.getD d defaultCell).max_regen_rate =
      (w.cells.getD d defaultCell).max_regen_rate ∧
    (handle_agent_death w i).cells.length = w.cells.length ∧
    ∀ c, c ≠ d →
      (handle_agent_death w i).cells.getD c defaultCell = w.cells.getD c defaultCell := by
  have hcell : (handle_agent_death w i).cells =
      w.cells.set d
        (Cell.increase_rate (Cell.add_resource (w.cells.getD d defaultCell) 5) 1) := by
    simp only [handle_agent_death, hd]
  rw [hcell, getD_set_self _ _ _ _ hlt]
  refine ⟨?_, ?_, rfl, rfl, rfl, by simp [List.length_set], ?_⟩
  · exact min_satAdd_eq _ _ _ hc hU
  · exact min_satAdd_eq _ _ _ hr hUr
  · intro c hc2
    exact getD_set_ne _ _ _ _ _ (fun he => hc2 he.symm)

/-- C6: death recycling — when an agent that was alive at the start of its
per-agent step is dead at the end of it, the cell recorded as its (possibly
post-move) `cid` gains exactly `min 5 (max_resource - pre_resource)` resource
and its regen rate gains exactly `min 1 (max_regen_rate - pre_rate)` (values
taken just before death handling), its other fields are untouched, and every
other cell is untouched.  `step_agent` is the only place a tick flips `alive`,
so this covers both movement-cost and metabolism deaths. -/
theorem C6_death_recycling (w : World) (i : Nat)
    (halive : (w.agents.getD i defaultAgent).alive = true)
    (hdead : ((step_agent w i).agents.getD i defaultAgent).alive = false)
    (hlt : ((step_agent w i).agents.getD i defaultAgent).cid < w.cells.length)
    (hc : (w.cells.getD ((step_agent w i).agents.getD i defaultAgent).cid
        defaultCell).cur_resource ≤
      (w.cells.getD ((step_agent w i).agents.getD i defaultAgent).cid
        defaultCell).max_resource)
    (hr : (w.cells.getD ((step_agent w i).agents.getD i defaultAgent).cid
        defaultCell).regen_rate ≤
      (w.cells.getD ((step_agent w i).agents.getD i defaultAgent).cid
        defaultCell).max_regen_rate)
    (hU : (w.cells.getD ((step_agent w i).agents.getD i defaultAgent).cid
        defaultCell).max_resource ≤ U32MAX)
    (hUr : (w.cells.getD ((step_agent w i).agents.getD i defaultAgent).cid
        defaultCell).max_regen_rate ≤ U32MAX) :
    ((step_agent w i).cells.getD ((step_agent w i).agents.getD i defaultAgent).cid
        defaultCell).cur_resource =
      (w.cells.getD ((step_agent w i).agents.getD i defaultAgent).cid
          defaultCell).cur_resource +
        min 5 ((w.cells.getD ((step_agent w i).agents.getD i defaultAgent).cid
            defaultCell).max_resource -
          (w.cells.getD ((step_agent w i).agents.getD i defaultAgent).cid
            defaultCell).cur_resource) ∧
    ((step_agent w i).cells.getD ((step_agent w i).agents.getD i defaultAgent).cid
        defaultCell).regen_rate =
      (w.cells.getD ((step_agent w i).agents.getD i defaultAgent).cid
          defaultCell).regen_rate +
        min 1 ((w.cells.getD ((step_agent w i).agents.getD i defaultAgent).cid
            defaultCell).max_regen_rate -
          (w.cells.getD ((step_agent w i).agents.getD i defaultAgent).cid
            defaultCell).regen_rate) ∧
    (step_agent w i).cells.length = w.cells.length ∧
    ∀ c, c ≠ ((step_agent w i).agents.getD i defaultAgent).cid →
      (step_agent w i).cells.getD c defaultCell = w.cells.getD c defaultCell := by
  obtain ⟨a, ha, hsw⟩ := step_agent_death_shape w i halive hdead
  have hlen := alive_getD_lt _ _ halive
  rw [ha] at hlt hc hr hU hUr ⊢
  rw [hsw]
  have hd1 : (({ w with agents := w.agents.set i a } : World).agents.getD i
      defaultAgent).cid = a.cid := by
    show ((w.agents.set i a).getD i defaultAgent).cid = a.cid
    rw [getD_set_self _ _ _ _ hlen]
  obtain ⟨g1, g2, _, _, _, g6, g7⟩ :=
    handle_agent_death_cells { w with agents := w.agents.set i a } i a.cid hd1 hlt hc hr hU hUr
  exact ⟨g1, g2, g6, g7⟩

/-- C6 witness: in `Wdie` the hungry agent moves to cell 1 and dies of the
movement cost; cell 1 (resource 4, cap 10) gains exactly 5 resource and 1
regen rate. -/
theorem C6_witness :
    (Wdie.agents.getD 0 defaultAgent).alive = true ∧
    ((step_agent Wdie 0).cells.getD
        ((step_agent Wdie 0).agents.getD 0 defaultAgent).cid defaultCell).cur_resource =
      (Wdie.cells.getD ((step_agent Wdie 0).agents.getD 0 defaultAgent).cid
          defaultCell).cur_resource +
        min 5 ((Wdie.cells.getD ((step_agent Wdie 0).agents.getD 0 defaultAgent).cid
            defaultCell).max_resource -
          (Wdie.cells.getD ((step_agent Wdie 0).agents.getD 0 defaultAgent).cid
            defaultCell).cur_resource) :=
  ⟨by decide, (C6_death_recycling Wdie 0 (by decide) (by decide) (by decide) (by decide)
    (by decide) (by decide) (by decide)).1⟩

/-! ### Allocation-conservation helpers -/

theorem residentIndices_disjoint (ags : List Agent) (c1 c2 j : Nat) (h : c1 ≠ c2)
    (h1 : j ∈ residentIndices ags c1) : j ∉ residentIndices ags c2 := by
  intro h2
  exact h (((mem_residentIndices.mp h1).2.2.symm).trans (mem_residentIndices.mp h2).2.2)

theorem sum_sub_min (l : List Nat) (b : Nat) (f : Nat → Nat) :
    (l.map (fun i => b - min b (f i))).sum =
      l.length * b - (l.map (fun i => min b (f i))).sum ∧
    (l.map (fun i => min b (f i))).sum ≤ l.length * b := by
  induction l with
  | nil => simp
  | cons a l ih =>
      obtain ⟨ih1, ih2⟩ := ih
      have h1 : min b (f a) ≤ b := Nat.min_le_left _ _
      have hmul : (l.length + 1) * b = l.length * b + b := by ring
      simp only [List.map_cons, List.sum_cons, List.length_cons]
      constructor
      · rw [ih1, hmul]
        omega
      · rw [hmul]
        omega

theorem allocateCell_spec (bks : Nat → List Nat) (cells : List Cell) (ags : List Agent)
    (cid : Nat) (hlt : cid < cells.length)
    (hres : bks cid ≠ []) (htot : (cells.getD cid defaultCell).cur_resource ≠ 0)
    (hnd : (bks cid).Nodup) (hbnd : ∀ i ∈ bks cid, i < ags.length) :
    (∀ i ∈ bks cid,
      (allocateCell bks (cells, ags) cid).2.getD i defaultAgent =
        { ags.getD i defaultAgent with
          allocated_resource :=
            min ((cells.getD cid defaultCell).cur_resource / (bks cid).length)
              (ags.getD i defaultAgent).consumption_rate }) ∧
    (cells.getD cid defaultCell).cur_resource -
        ((allocateCell bks (cells, ags) cid).1.getD cid defaultCell).cur_resource =
      ((bks cid).map (fun i =>
        min ((cells.getD cid defaultCell).cur_resource / (bks cid).length)
          (ags.getD i defaultAgent).consumption_rate)).sum ∧
    ((allocateCell bks (cells, ags) cid).1.getD cid defaultCell).cur_resource ≤
      (cells.getD cid defaultCell).cur_resource ∧
    ((allocateCell bks (cells, ags) cid).1.getD cid defaultCell).id =
      (cells.getD cid defaultCell).id ∧
    ((allocateCell bks (cells, ags) cid).1.getD cid defaultCell).max_resource =
      (cells.getD cid defaultCell).max_resource ∧
    ((allocateCell bks (cells, ags) cid).1.getD cid defaultCell).regen_rate =
      (cells.getD cid defaultCell).regen_rate ∧
    ((allocateCell bks (cells, ags) cid).1.getD cid defaultCell).max_regen_rate =
      (cells.getD cid defaultCell).max_regen_rate := by
  have hdef : allocateCell bks (cells, ags) cid =
      (cells.set cid
        (Cell.take_up_to (cells.getD cid defaultCell)
          ((cells.getD cid defaultCell).cur_resource -
            (serveAgents ags (bks cid)
              ((cells.getD cid defaultCell).cur_resource / (bks cid).length)
              ((cells.getD cid defaultCell).cur_resource -
                (cells.getD cid defaultCell).cur_resource / (bks cid).length *
                  (bks cid).length)).2)).1,
       (serveAgents ags (bks cid)
         ((cells.getD cid defaultCell).cur_resource / (bks cid).length)
         ((cells.getD cid defaultCell).cur_resource -
           (cells.getD cid defaultCell).cur_resource / (bks cid).length *
             (bks cid).length)).1) := by
    simp only [allocateCell]
    rw [if_neg hres, if_neg htot]
  rw [hdef]
  set T := (cells.getD cid defaultCell).cur_resource with hTdef
  set n := (bks cid).length with hndef
  set b := T / n with hbdef
  set sa := serveAgents ags (bks cid) b (T - b * n) with hsadef
  have hcell : ((cells.set cid
      (Cell.take_up_to (cells.getD cid defaultCell) (T - sa.2)).1).getD cid
      defaultCell) = (Cell.take_up_to (cells.getD cid defaultCell) (T - sa.2)).1 :=
    getD_set_self _ _ _ _ hlt
  rw [hcell]
  have hmem : ∀ i ∈ bks cid, sa.1.getD i defaultAgent =
      { ags.getD i defaultAgent with
        allocated_resource := min b (ags.getD i defaultAgent).consumption_rate } := by
    intro i hi
    rw [hsadef]
    exact serveAgents_getD_mem (bks cid) ags b _ i hnd hbnd hi
  have hsnd : sa.2 = (T - b * n) +
      ((bks cid).map
        (fun i => b - min b (ags.getD i defaultAgent).consumption_rate)).sum := by
    rw [hsadef, serveAgents_snd]
  have hSigma : ((bks cid).map
      (fun i => b - min b (ags.getD i defaultAgent).consumption_rate)).sum =
      n * b - ((bks cid).map
        (fun i => min b (ags.getD i defaultAgent).consumption_rate)).sum :=
    (sum_sub_min (bks cid) b (fun i => (ags.getD i defaultAgent).consumption_rate)).1
  have hS : ((bks cid).map
      (fun i => min b (ags.getD i defaultAgent).consumption_rate)).sum ≤ n * b :=
    (sum_sub_min (bks cid) b (fun i => (ags.getD i defaultAgent).consumption_rate)).2
  have hbn : b * n ≤ T := Nat.div_mul_le_self T n
  have hcomm : n * b = b * n := Nat.mul_comm n b
  have hcur : (Cell.take_up_to (cells.getD cid defaultCell) (T - sa.2)).1.cur_resource =
      T - min (T - sa.2) T := rfl
  refine ⟨hmem, ?_, ?_, rfl, rfl, rfl, rfl⟩
  · rw [hcur]
    omega
  · rw [hcur]
    omega

theorem allocate_decomp (w : World) (cid : Nat) (hcid : cid < w.cells.length) :
    (allocate_resources w).cells =
      (((List.range (w.cells.length - (cid + 1))).map ((cid + 1) + ·)).foldl
        (allocateCell (residentIndices w.agents))
        (allocateCell (residentIndices w.agents)
          ((List.range cid).foldl (allocateCell (residentIndices w.agents))
            (w.cells, w.agents)) cid)).1 ∧
    (allocate_resources w).agents =
      (((List.range (w.cells.length - (cid + 1))).map ((cid + 1) + ·)).foldl
        (allocateCell (residentIndices w.agents))
        (allocateCell (residentIndices w.agents)
          ((List.range cid).foldl (allocateCell (residentIndices w.agents))
            (w.cells, w.agents)) cid)).2 := by
  constructor
  · show ((List.range w.cells.length).foldl (allocateCell (residentIndices w.agents))
      (w.cells, w.agents)).1 = _
    rw [range_split w.cells.length cid hcid, foldl_split]
  · show ((List.range w.cells.length).foldl (allocateCell (residentIndices w.agents))
      (w.cells, w.agents)).2 = _
    rw [range_split w.cells.length cid hcid, foldl_split]

/-- C2: allocation conservation — after `World::allocate_resources`, for any
cell, `resource_before - resource_after` equals the sum of the residents'
(overwritten) allocations, each resident is granted exactly
`min base_share consumption_rate`, the cell loses nothing else (its other
fields are untouched and its resource never increases: the division remainder
and unneeded shares stay), and a cell with no alive residents or zero
resource is untouched, as are its residents. -/
theorem C2_allocation_conservation (w : World) (cid : Nat) (hcid : cid < w.cells.length) :
    ((residentIndices w.agents cid = [] ∨
        (w.cells.getD cid defaultCell).cur_resource = 0) →
      (allocate_resources w).cells.getD cid defaultCell = w.cells.getD cid defaultCell ∧
      ∀ i ∈ residentIndices w.agents cid,
        (allocate_resources w).agents.getD i defaultAgent = w.agents.getD i defaultAgent) ∧
    (residentIndices w.agents cid ≠ [] →
      (w.cells.getD cid defaultCell).cur_resource ≠ 0 →
      ((w.cells.getD cid defaultCell).cur_resource -
          ((allocate_resources w).cells.getD cid defaultCell).cur_resource =
        ((residentIndices w.agents cid).map (fun i =>
          ((allocate_resources w).agents.getD i defaultAgent).allocated_resource)).sum ∧
      ((allocate_resources w).cells.getD cid defaultCell).cur_resource ≤
        (w.cells.getD cid defaultCell).cur_resource ∧
      (∀ i ∈ residentIndices w.agents cid,
        (allocate_resources w).agents.getD i defaultAgent =
          { w.agents.getD i defaultAgent with
            allocated_resource :=
              min ((w.cells.getD cid defaultCell).cur_resource /
                  (residentIndices w.agents cid).length)
                (w.agents.getD i defaultAgent).consumption_rate }) ∧
      ((allocate_resources w).cells.getD cid defaultCell).id =
        (w.cells.getD cid defaultCell).id ∧
      ((allocate_resources w).cells.getD cid defaultCell).max_resource =
        (w.cells.getD cid defaultCell).max_resource ∧
      ((allocate_resources w).cells.getD cid defaultCell).regen_rate =
        (w.cells.getD cid defaultCell).regen_rate ∧
      ((allocate_resources w).cells.getD cid defaultCell).max_regen_rate =
        (w.cells.getD cid defaultCell).max_regen_rate)) := by
  obtain ⟨hcells, hagents⟩ := allocate_decomp w cid hcid
  set bks := residentIndices w.agents with hbksdef
  set tail := (List.range (w.cells.length - (cid + 1))).map ((cid + 1) + ·) with htaildef
  set st1 := (List.range cid).foldl (allocateCell bks) (w.cells, w.agents) with hst1def
  set st2 := allocateCell bks st1 cid with hst2def
  have hcnr : cid ∉ List.range cid := by simp
  have hcnt : cid ∉ tail := by
    rw [htaildef]
    simp only [List.mem_map, List.mem_range]
    rintro ⟨y, _, hy⟩
    omega
  have hc1 : st1.1.getD cid defaultCell = w.cells.getD cid defaultCell := by
    rw [hst1def]
    exact foldAlloc_cell_frame bks (List.range cid) (w.cells, w.agents) cid hcnr
  have hlen1 : st1.1.length = w.cells.length := by
    rw [hst1def]
    exact (foldAlloc_lengths bks (List.range cid) (w.cells, w.agents)).1
  have hlen2 : st1.2.length = w.agents.length := by
    rw [hst1def]
    exact (foldAlloc_lengths bks (List.range cid) (w.cells, w.agents)).2
  have hag1 : ∀ i ∈ bks cid, st1.2.getD i defaultAgent = w.agents.getD i defaultAgent := by
    intro i hi
    rw [hst1def]
    apply foldAlloc_agent_frame
    intro c hc
    have hclt : c < cid := List.mem_range.mp hc
    exact residentIndices_disjoint w.agents cid c i (by omega) hi
  have hagtail : ∀ i ∈ bks cid, ∀ c ∈ tail, i ∉ bks c := by
    intro i hi c hc
    rw [htaildef] at hc
    simp only [List.mem_map, List.mem_range] at hc
    obtain ⟨y, _, hy⟩ := hc
    exact residentIndices_disjoint w.agents cid c i (by omega) hi
  rw [hcells, hagents]
  constructor
  · intro hdisj
    have hst2eq : st2 = st1 := by
      rw [hst2def]
      rcases hdisj with hr | ht
      · simp [allocateCell, hr]
      · have ht' : (st1.1.getD cid defaultCell).cur_resource = 0 := by
          rw [hc1]; exact ht
        by_cases hr2 : bks cid = []
        · simp [allocateCell, hr2]
        · simp only [allocateCell]
          rw [if_neg hr2, if_pos ht']
    constructor
    · rw [foldAlloc_cell_frame bks tail st2 cid hcnt, hst2eq, hc1]
    · intro i hi
      rw [foldAlloc_agent_frame bks tail st2 i (hagtail i hi), hst2eq, hag1 i hi]
  · intro hres htot
    have hlt1 : cid < st1.1.length := by rw [hlen1]; exact hcid
    have htot1 : (st1.1.getD cid defaultCell).cur_resource ≠ 0 := by rw [hc1]; exact htot
    have hbnd : ∀ i ∈ bks cid, i < st1.2.length := by
      intro i hi
      rw [hlen2]
      exact (mem_residentIndices.mp hi).1
    have hnd : (bks cid).Nodup := nodup_residentIndices w.agents cid
    obtain ⟨s1, s2, s3, s4, s5, s6, s7⟩ :=
      allocateCell_spec bks st1.1 st1.2 cid hlt1 hres htot1 hnd hbnd
    rw [Prod.mk.eta] at s1 s2 s3 s4 s5 s6 s7
    rw [← hst2def] at s1 s2 s3 s4 s5 s6 s7
    have hfc : (tail.foldl (allocateCell bks) st2).1.getD cid defaultCell =
        st2.1.getD cid defaultCell := foldAlloc_cell_frame bks tail st2 cid hcnt
    have hfa : ∀ i ∈ bks cid,
        (tail.foldl (allocateCell bks) st2).2.getD i defaultAgent =
          st2.2.getD i defaultAgent :=
      fun i hi => foldAlloc_agent_frame bks tail st2 i (hagtail i hi)
    rw [hc1] at s2 s3 s4 s5 s6 s7
    have hagfin : ∀ i ∈ bks cid,
        (tail.foldl (allocateCell bks) st2).2.getD i defaultAgent =
          { w.agents.getD i defaultAgent with
            allocated_resource :=
              min ((w.cells.getD cid defaultCell).cur_resource / (bks cid).length)
                (w.agents.getD i defaultAgent).consumption_rate } := by
      intro i hi
      rw [hfa i hi, s1 i hi, hag1 i hi, hc1]
    refine ⟨?_, ?_, hagfin, ?_, ?_, ?_, ?_⟩
    · have hmapeq : ((bks cid).map (fun i =>
          ((tail.foldl (allocateCell bks) st2).2.getD i
            defaultAgent).allocated_resource)).sum =
          ((bks cid).map (fun i =>
            min ((w.cells.getD cid defaultCell).cur_resource / (bks cid).length)
              (w.agents.getD i defaultAgent).consumption_rate)).sum := by
        refine congrArg List.sum ?_
        refine List.map_congr_left ?_
        intro i hi
        rw [hagfin i hi]
      rw [hfc, hmapeq]
      have hrates : ((bks cid).map (fun i =>
          min ((w.cells.getD cid defaultCell).cur_resource / (bks cid).length)
            ((st1.2.getD i defaultAgent)).consumption_rate)) =
          ((bks cid).map (fun i =>
            min ((w.cells.getD cid defaultCell).cur_resource / (bks cid).length)
              ((w.agents.getD i defaultAgent)).consumption_rate)) := by
        refine List.map_congr_left ?_
        intro i hi
        rw [hag1 i hi]
      rw [hrates] at s2
      exact s2
    · rw [hfc]
      exact s3
    · rw [hfc]
      exact s4
    · rw [hfc]
      exact s5
    · rw [hfc]
      exact s6
    · rw [hfc]
      exact s7

/-- C2 witness: scenario C — one cell with 10 resource and two resident
agents of rate 7; the conservation equation instantiated there. -/
theorem C2_witness :
    (Wshare2.cells.getD 0 defaultCell).cur_resource -
        ((allocate_resources Wshare2).cells.getD 0 defaultCell).cur_resource =
      ((residentIndices Wshare2.agents 0).map (fun i =>
        ((allocate_resources Wshare2).agents.getD i defaultAgent).allocated_resource)).sum :=
  ((C2_allocation_conservation Wshare2 0 (by decide)).2 (by decide) (by decide)).1
